import Mathlib

/-!
Shallow embedding of `src/src/MESSAGE/server_md.cpp` (the LAMMPS `ServerMD`
class): the message loop `ServerMD::loop`, the box installer
`ServerMD::box_change` and the reply builder `ServerMD::send_fev`.

Modelling conventions: C `double` values are exact rationals (`ℚ`); C `int`
values are `Int`, with explicit 32-bit two's-complement wraparound where
overflow matters; the external collaborators that live outside `src/`
(CSlib transport, pair/kspace force styles, `Domain::ownatom`,
`Domain::closest_image`, `Atom::map`, `Neighbor::decide`) are explicit
parameters gathered in `Env`.  `error->all` aborts the whole process group;
it is modelled by the `fatal` constructors, which carry the state exactly as
it was at the moment of the abort.
-/

/-- A 3-vector of doubles (modelled as rationals). -/
abbrev Vec3 := ℚ × ℚ × ℚ

/-- The 9-element BOX tensor of a SETUP/STEP message: entries 0, 4, 8 are the
edge lengths along x, y, z and entries 3, 6, 7 are the xy, xz, yz tilt
factors (entries 1, 2, 5 are carried but never read by the server). -/
structure Tensor9 where
  e0 : ℚ
  e1 : ℚ
  e2 : ℚ
  e3 : ℚ
  e4 : ℚ
  e5 : ℚ
  e6 : ℚ
  e7 : ℚ
  e8 : ℚ
deriving DecidableEq, Inhabited

/-- The slice of LAMMPS `Domain` state read and written by `server_md.cpp`:
the configuration (`dimension`, per-axis `periodicity`, `triclinic`) and the
box geometry (`boxlo`, `boxhi` per axis plus the tilt factors `xy`, `xz`,
`yz`). -/
structure DomainState where
  dimension : Int
  periodicity0 : Int
  periodicity1 : Int
  periodicity2 : Int
  triclinic : Int
  boxlo0 : ℚ
  boxlo1 : ℚ
  boxlo2 : ℚ
  boxhi0 : ℚ
  boxhi1 : ℚ
  boxhi2 : ℚ
  xy : ℚ
  xz : ℚ
  yz : ℚ
deriving DecidableEq, Inhabited

/-- `ServerMD::box_change` (src lines 299-314): install `origin` as the lower
box corner, `origin + diagonal` (tensor entries 0, 4, 8) as the upper corner
and tensor entries 3, 6, 7 as the tilt factors, leaving every other domain
field alone. -/
def box_change (d : DomainState) (origin : Vec3) (box : Tensor9) : DomainState :=
  { d with
    boxlo0 := origin.1
    boxlo1 := origin.2.1
    boxlo2 := origin.2.2
    boxhi0 := origin.1 + box.e0
    boxhi1 := origin.2.1 + box.e4
    boxhi2 := origin.2.2 + box.e8
    xy := box.e3
    xz := box.e6
    yz := box.e7 }

/-- One locally-owned atom: global identifier (`atom->tag`), type, position
and charge (`create_atom` leaves the charge 0 when no CHARGE field came). -/
structure Atom where
  tag : Int
  typ : Int
  x : Vec3
  q : ℚ
deriving DecidableEq, Inhabited

/-- One decoded message field (the field-ID enum at src line 38), with its
payload carried inline.  `fUNKNOWN` stands for any field ID outside the
enumeration. -/
inductive MsgField where
  | fDIM (v : Int)
  | fPERIODICITY (p0 p1 p2 : Int)
  | fORIGIN (o : Vec3)
  | fBOX (b : Tensor9)
  | fNATOMS (n : Int)
  | fNTYPES (n : Int)
  | fTYPES (ts : List Int)
  | fCOORDS (cs : List ℚ)
  | fCHARGE (qs : List ℚ)
  | fUNKNOWN
deriving DecidableEq

/-- A received message: `kind` is the CSlib msgID (1 = SETUP, 2 = STEP, a
negative kind is the terminate/end-of-stream condition of src line 90),
plus the decoded fields. -/
structure Msg where
  kind : Int
  fields : List MsgField
deriving DecidableEq

/-- The `error->all` failure sites of `ServerMD::loop`, named after their
message texts. -/
inductive ErrMsg where
  | dimMismatch
  | periodicityMismatch
  | maxAtoms
  | ntypesMismatch
  | unknownSetupField
  | missingSetupField
  | noChargeAttr
  | triclinicBox
  | atomCountMismatch
  | unknownStepField
  | missingStepField
  | unknownMessage
deriving DecidableEq

/-- Two's-complement wraparound of a C `int` (32-bit signed) value. -/
def wrap32 (x : Int) : Int := (x + 2 ^ 31) % 2 ^ 32 - 2 ^ 31

/-- `INT_MAX` of a 32-bit `int`. -/
def INT_MAX : Int := 2 ^ 31 - 1

/-- The NATOMS guard at src line 125: `if (3*natoms > INT_MAX)`, with the
C `int` product `3*natoms` evaluated with 32-bit wraparound. -/
def maxAtomsGuard (natoms : Int) : Bool := INT_MAX < wrap32 (3 * natoms)

/-- A 6-component virial tensor (xx, yy, zz, xy, xz, yz). -/
structure V6 where
  c0 : ℚ
  c1 : ℚ
  c2 : ℚ
  c3 : ℚ
  c4 : ℚ
  c5 : ℚ
deriving DecidableEq, Inhabited

/-- The all-zero virial. -/
def v6zero : V6 := ⟨0, 0, 0, 0, 0, 0⟩

/-- Componentwise sum of two virials. -/
def v6add (a b : V6) : V6 :=
  ⟨a.c0 + b.c0, a.c1 + b.c1, a.c2 + b.c2, a.c3 + b.c3, a.c4 + b.c4, a.c5 + b.c5⟩

/-- Componentwise sum of a list of virials (the `MPI_SUM` reduction of
src line 343). -/
def v6sum (l : List V6) : V6 := l.foldr v6add v6zero

/-- Modelled from the spec: one process's Force Engine outputs read by
`send_fev` -- `force->pair->eng_vdwl`, `force->pair->eng_coul`,
`force->pair->virial` and `force->kspace->virial` (the pair style and the
kspace solver live outside `src/`). -/
structure FEout where
  eng_vdwl : ℚ
  eng_coul : ℚ
  pairV : V6
  kspaceV : V6
deriving DecidableEq, Inhabited

/-- A reply sent to the client: either a FORCES/ENERGY/VIRIAL message
(`cs->send(msgID,3)` plus the three packs inside `send_fev`) or the
zero-field closing reply `cs->send(0,0)` of src line 274. -/
inductive Reply where
  | fev (msgID : Int) (forces : List (Int × Vec3)) (energy : ℚ) (virial : V6)
  | closing
deriving DecidableEq

/-- `ServerMD::send_fev` (src lines 321-345) as seen by the client: the
energy is the all-reduced sum over the process group of each process's
`eng_vdwl + eng_coul`; the virial is the all-reduced componentwise sum of
each process's pair virial, plus its kspace virial when a kspace
(long-range) solver is configured; the forces are the merged per-process
`pack_parallel` payloads. -/
def send_fev (msgID : Int) (kspaceOn : Bool) (fes : List FEout)
    (forces : List (Int × Vec3)) : Reply :=
  Reply.fev msgID forces
    ((fes.map (fun f => f.eng_vdwl + f.eng_coul)).sum)
    (v6sum (fes.map (fun f => if kspaceOn then v6add f.pairV f.kspaceV else f.pairV)))

/-- Per-process view of `send_fev`: every process participates in the same
`MPI_Allreduce` and packs the reduced values, so each of the `fes.length`
processes sends the reply built from the group sums. -/
def send_fevGroup (msgID : Int) (kspaceOn : Bool) (fes : List FEout)
    (forces : List (Int × Vec3)) : List Reply :=
  fes.map (fun _ => send_fev msgID kspaceOn fes forces)

/-- The coordinate triple at offset `j` of the flat coordinate buffer
(`&coords[j]`). -/
def coordsSlice (cs : List ℚ) (j : Nat) : Vec3 :=
  (cs.getD j 0, cs.getD (j + 1) 0, cs.getD (j + 2) 0)

/-- The SETUP atom-scatter loop of src lines 168-175 on one process: iterate
atom indices `i = 0 .. natoms-1`; skip every atom whose coordinates the
process does not own (`domain->ownatom`, which lives in `domain.cpp` outside
`src/`, is the parameter `ow`); otherwise create the atom with tag `i+1`,
its type, its coordinate triple, and its charge when a CHARGE field was
received. -/
def createLocal (ow : Int → Vec3 → Bool) (natoms : Nat) (ts : List Int)
    (cs : List ℚ) (ch : Option (List ℚ)) : List Atom :=
  (List.range natoms).filterMap (fun (i : Nat) =>
    if ow ((i : Int) + 1) (coordsSlice cs (3 * i)) then
      some { tag := (i : Int) + 1, typ := ts.getD i 0,
             x := coordsSlice cs (3 * i),
             q := match ch with | some qs => qs.getD i 0 | none => 0 }
    else none)

/-- All processes' local atom sets after the SETUP scatter (every process of
the group runs the same loop with its own ownership predicate). -/
def scatterLocals (ownsP : List (Int → Vec3 → Bool)) (natoms : Nat)
    (ts : List Int) (cs : List ℚ) (ch : Option (List ℚ)) : List (List Atom) :=
  ownsP.map (fun ow => createLocal ow natoms ts cs ch)

/-- The `MPI_Allreduce` of `atom->nlocal` at src line 178: the global sum of
the per-process local atom counts. -/
def scatterTotal (ownsP : List (Int → Vec3 → Bool)) (natoms : Nat)
    (ts : List Int) (cs : List ℚ) (ch : Option (List ℚ)) : Nat :=
  ((scatterLocals ownsP natoms ts cs ch).map List.length).sum

/-- The post-scatter consistency check of src lines 177-180: any global
count other than exact equality with `natoms` is the fatal
"Server md atom count does not match client" error. -/
def setupCountCheck (ownsP : List (Int → Vec3 → Bool)) (natoms : Nat)
    (ts : List Int) (cs : List ℚ) (ch : Option (List ℚ)) :
    Except ErrMsg (List (List Atom)) :=
  if scatterTotal ownsP natoms ts cs ch ≠ natoms then .error .atomCountMismatch
  else .ok (scatterLocals ownsP natoms ts cs ch)

/-- The identifier set `{1..natoms}` that the union of the processes' local
identifier sets must cover with no duplicates and no gaps. -/
def expectedTags (natoms : Nat) : List Int :=
  (List.range natoms).map (fun (i : Nat) => (i : Int) + 1)

/-- Overwrite an atom's position, keeping identifier, type and charge. -/
def setX (a : Atom) (v : Vec3) : Atom := { a with x := v }

/-- Modelled from the spec: `atom->map(id)` of src line 242 (`atom.cpp` is
outside `src/`) -- the local index of the owned atom with identifier `id`,
or `none` (the code's `m < 0 || m >= nlocal` test) when the process does
not own that identifier. -/
def atomMap (A : List Atom) (id : Int) : Option Nat :=
  match A with
  | [] => none
  | a :: rest => if a.tag = id then some 0 else (atomMap rest id).map (· + 1)

/-- The STEP coordinate-remap loop of src lines 240-248: for identifiers
`id, id+1, ...` (`r` of them), an owned atom's position is overwritten with
`closest_image(x[m], &coords[j], x[m])` -- the minimum-image corrected
received coordinate, where `Domain::closest_image` lives outside `src/` and
is the parameter `ci reference candidate`; owned or not, the flat-buffer
cursor `j` advances by exactly 3 per identifier.  Returns the updated atom
list and the final cursor. -/
def remapGo (ci : Vec3 → Vec3 → Vec3) (cs : List ℚ) :
    List Atom → Nat → Int → Nat → List Atom × Nat
  | A, j, _, 0 => (A, j)
  | A, j, id, r + 1 =>
    match atomMap A id with
    | none => remapGo ci cs A (j + 3) (id + 1) r
    | some m =>
      remapGo ci cs
        (A.set m (setX (A.getD m default)
          (ci (A.getD m default).x (coordsSlice cs j))))
        (j + 3) (id + 1) r

/-- The whole remap loop: identifiers `1 .. nall`, cursor starting at 0. -/
def remap (ci : Vec3 → Vec3 → Vec3) (A : List Atom) (cs : List ℚ)
    (nall : Nat) : List Atom × Nat :=
  remapGo ci cs A 0 1 nall

/-- Modelled from the spec: the external collaborators of the loop --
per-process ownership predicates (`domain->ownatom`), the closest-image
routine (`domain->closest_image`), the Force Engine outputs for each force
call (`pairFE`, indexed by the force-call counter), the per-atom forces
packed by `pack_parallel` (`forceOf`), the neighbor-rebuild decision
(`neighbor->decide`, indexed by the force-call counter), whether a kspace
solver is configured, and `atom->q_flag`. -/
structure Env where
  ownsP : List (Int → Vec3 → Bool)
  ci : Vec3 → Vec3 → Vec3
  pairFE : Nat → List FEout
  forceOf : Nat → Int → Vec3
  neighDecide : Nat → Bool
  kspaceOn : Bool
  q_flag : Bool

/-- The per-session server state touched by `ServerMD::loop`: the domain
configuration and box, each process's local atoms, `atom->natoms`,
`atom->ntypes`, and the two statistics counters. -/
structure ServerState where
  domain : DomainState
  atomsP : List (List Atom)
  natoms : Int
  ntypes : Int
  forcecalls : Nat
  neighcalls : Nat
deriving DecidableEq, Inhabited

/-- The SETUP field accumulator (src lines 98-106): the handler's locals,
initialized to 0, NULL and -1 before the field loop. -/
structure SetupFields where
  dim : Int := 0
  periodicity : Option (Int × Int × Int) := none
  origin : Option Vec3 := none
  box : Option Tensor9 := none
  natoms : Int := -1
  ntypes : Int := -1
  types : Option (List Int) := none
  coords : Option (List ℚ) := none
  charge : Option (List ℚ) := none
deriving DecidableEq

/-- The SETUP field loop (src lines 108-138): unpack each field in order,
checking DIM, PERIODICITY, NATOMS and NTYPES against the server
configuration as they arrive; an unknown field ID is fatal.  Note: the
source's PERIODICITY condition (lines 115-117) is missing the `||` between
the second and third comparisons and is ill-formed C++ as written; the
check here is modelled from the spec ("PERIODICITY per axis must match the
server's configured periodicity exactly (three booleans)"). -/
def setupParse (st : ServerState) :
    List MsgField → SetupFields → Except ErrMsg SetupFields
  | [], acc => .ok acc
  | f :: rest, acc =>
    match f with
    | .fDIM v =>
      if v ≠ st.domain.dimension then .error .dimMismatch
      else setupParse st rest { acc with dim := v }
    | .fPERIODICITY p0 p1 p2 =>
      if p0 ≠ st.domain.periodicity0 ∨ p1 ≠ st.domain.periodicity1 ∨
          p2 ≠ st.domain.periodicity2 then .error .periodicityMismatch
      else setupParse st rest { acc with periodicity := some (p0, p1, p2) }
    | .fORIGIN o => setupParse st rest { acc with origin := some o }
    | .fBOX b => setupParse st rest { acc with box := some b }
    | .fNATOMS n =>
      if maxAtomsGuard n then .error .maxAtoms
      else setupParse st rest { acc with natoms := n }
    | .fNTYPES n =>
      if n ≠ st.ntypes then .error .ntypesMismatch
      else setupParse st rest { acc with ntypes := n }
    | .fTYPES ts => setupParse st rest { acc with types := some ts }
    | .fCOORDS cs => setupParse st rest { acc with coords := some cs }
    | .fCHARGE qs => setupParse st rest { acc with charge := some qs }
    | .fUNKNOWN => .error .unknownSetupField

/-- Outcome of one message handler: `error->all` aborts the group carrying
the state exactly as it was at the failure point; otherwise the updated
state plus the reply that was sent. -/
inductive HandlerOut where
  | fatal (e : ErrMsg) (st : ServerState)
  | ok (st : ServerState) (r : Reply)
deriving DecidableEq

/-- The SETUP branch (src lines 96-196): parse and validate the fields,
reject a CHARGE field when the atom style has no charge, reject a tilted box
on a non-triclinic server before installing the box, install the box,
rebuild every process's local atom set from scratch, check the global atom
count, store `atom->natoms`, count one neighbor rebuild and one force call,
and send the FORCES/ENERGY/VIRIAL reply.  (`set_initial_box`,
`set_global_box`, `set_proc_grid`, `set_local_box`, `map_init`, `map_set`,
`lmp->init` and `setup_minimal` touch no state modelled here.) -/
def handleSetup (env : Env) (st : ServerState) (fields : List MsgField) :
    HandlerOut :=
  match setupParse st fields {} with
  | .error e => .fatal e st
  | .ok a =>
    if a.dim = 0 ∨ a.periodicity.isNone ∨ a.origin.isNone ∨ a.box.isNone ∨
        a.natoms < 0 ∨ a.ntypes < 0 ∨ a.types.isNone ∨ a.coords.isNone then
      .fatal .missingSetupField st
    else if a.charge.isSome ∧ env.q_flag = false then .fatal .noChargeAttr st
    else if ((a.box.getD default).e3 ≠ 0 ∨ (a.box.getD default).e6 ≠ 0 ∨
        (a.box.getD default).e7 ≠ 0) ∧ st.domain.triclinic = 0 then
      .fatal .triclinicBox st
    else
      match setupCountCheck env.ownsP a.natoms.toNat (a.types.getD [])
          (a.coords.getD []) a.charge with
      | .error e =>
        .fatal e
          { st with
            domain := box_change st.domain (a.origin.getD default) (a.box.getD default)
            atomsP := scatterLocals env.ownsP a.natoms.toNat (a.types.getD [])
              (a.coords.getD []) a.charge }
      | .ok locals =>
        .ok
          { st with
            domain := box_change st.domain (a.origin.getD default) (a.box.getD default)
            atomsP := locals
            natoms := a.natoms
            neighcalls := st.neighcalls + 1
            forcecalls := st.forcecalls + 1 }
          (send_fev 1 env.kspaceOn (env.pairFE st.forcecalls)
            ((locals.map (fun A =>
              A.map (fun a1 => (a1.tag, env.forceOf st.forcecalls a1.tag)))).flatten))

/-- The STEP field accumulator (src lines 204-206). -/
structure StepFields where
  coords : Option (List ℚ) := none
  origin : Option Vec3 := none
  box : Option Tensor9 := none
deriving DecidableEq

/-- The STEP field loop (src lines 208-216): only COORDS, ORIGIN and BOX are
recognized; any other field ID is fatal. -/
def stepParse : List MsgField → StepFields → Except ErrMsg StepFields
  | [], acc => .ok acc
  | f :: rest, acc =>
    match f with
    | .fCOORDS cs => stepParse rest { acc with coords := some cs }
    | .fORIGIN o => stepParse rest { acc with origin := some o }
    | .fBOX b => stepParse rest { acc with box := some b }
    | _ => .error .unknownStepField

/-- The optional STEP box update of src lines 224-231: it happens only when
both ORIGIN and BOX were received, and the triclinic check precedes
`box_change`. -/
def stepBoxUpdate (st : ServerState) (origin : Option Vec3)
    (box : Option Tensor9) : Except ErrMsg DomainState :=
  match origin, box with
  | some o, some b =>
    if (b.e3 ≠ 0 ∨ b.e6 ≠ 0 ∨ b.e7 ≠ 0) ∧ st.domain.triclinic = 0 then
      .error .triclinicBox
    else .ok (box_change st.domain o b)
  | _, _ => .ok st.domain

/-- The STEP branch (src lines 202-267): COORDS is required; a box update
happens only when both ORIGIN and BOX were received, with the triclinic
check before `box_change`; the received coordinates are remapped onto the
owned atoms of every process; `neighbor->decide` picks the rebuild or the
ghost-communication path (both end in a force evaluation); the counters are
bumped and the FORCES/ENERGY/VIRIAL reply is sent. -/
def handleStep (env : Env) (st : ServerState) (fields : List MsgField) :
    HandlerOut :=
  match stepParse fields {} with
  | .error e => .fatal e st
  | .ok a =>
    match a.coords with
    | none => .fatal .missingStepField st
    | some cs =>
      match stepBoxUpdate st a.origin a.box with
      | .error e => .fatal e st
      | .ok d' =>
        .ok
          { st with
            domain := d'
            atomsP := st.atomsP.map (fun A => (remap env.ci A cs st.natoms.toNat).1)
            forcecalls := st.forcecalls + 1
            neighcalls := st.neighcalls +
              (if env.neighDecide st.forcecalls then 1 else 0) }
          (send_fev 2 env.kspaceOn (env.pairFE st.forcecalls)
            (((st.atomsP.map (fun A => (remap env.ci A cs st.natoms.toNat).1)).map
              (fun A =>
                A.map (fun a1 => (a1.tag, env.forceOf st.forcecalls a1.tag)))).flatten))

/-- Dispatch on the received msgID (src lines 96, 202 and 269): 1 = SETUP,
2 = STEP, and any other non-negative kind is the fatal
"Server MD received unrecognized message" error. -/
def handleMsg (env : Env) (st : ServerState) (m : Msg) : HandlerOut :=
  if m.kind = 1 then handleSetup env st m.fields
  else if m.kind = 2 then handleStep env st m.fields
  else .fatal .unknownMessage st

/-- Result of running the message loop: `done` after a terminate message or
end-of-stream (the zero-field closing reply of src line 274 is the reply
list's last element), or `fatal` when a handler hit `error->all`.  `nread`
counts the messages consumed from the stream. -/
inductive Outcome where
  | done (replies : List Reply) (nread : Nat) (final : ServerState)
  | fatal (e : ErrMsg) (replies : List Reply) (nread : Nat) (st : ServerState)
deriving DecidableEq

/-- `ServerMD::loop` (src lines 69-293) over a stream of messages: receive
one message, break when `msgID < 0` (or when the stream ends), otherwise
dispatch and send the handler's reply; after the loop send exactly one
zero-field closing reply. -/
def loop (env : Env) (st : ServerState) : List Msg → Outcome
  | [] => .done [Reply.closing] 0 st
  | m :: rest =>
    if m.kind < 0 then .done [Reply.closing] 1 st
    else
      match handleMsg env st m with
      | .fatal e st' => .fatal e [] 1 st'
      | .ok st' r =>
        match loop env st' rest with
        | .done rs n f => .done (r :: rs) (n + 1) f
        | .fatal e rs n f => .fatal e (r :: rs) (n + 1) f

/-- Run a list of messages through the handlers, collecting the replies in
order; `none` when some message terminates the stream or a handler is
fatal.  Used to express "N successful SETUP/STEP exchanges". -/
def runMsgs (env : Env) (st : ServerState) :
    List Msg → Option (ServerState × List Reply)
  | [] => some (st, [])
  | m :: rest =>
    if m.kind < 0 then none
    else
      match handleMsg env st m with
      | .fatal _ _ => none
      | .ok st' r =>
        match runMsgs env st' rest with
        | none => none
        | some (f, rs) => some (f, r :: rs)

/-- A concrete single-process environment whose force engine reports no
pair results and zero forces. -/
def env0 : Env :=
  { ownsP := [fun _ _ => true]
  , ci := fun _ c => c
  , pairFE := fun _ => []
  , forceOf := fun _ _ => (0, 0, 0)
  , neighDecide := fun _ => false
  , kspaceOn := false
  , q_flag := false }

/-- A fresh pre-SETUP server state: the input script defined a unit box and
no atoms; no SETUP message has been processed yet. -/
def st0 : ServerState :=
  { domain :=
      { dimension := 3, periodicity0 := 1, periodicity1 := 1,
        periodicity2 := 1, triclinic := 0,
        boxlo0 := 0, boxlo1 := 0, boxlo2 := 0,
        boxhi0 := 1, boxhi1 := 1, boxhi2 := 1, xy := 0, xz := 0, yz := 0 }
  , atomsP := [[]]
  , natoms := 0
  , ntypes := 1
  , forcecalls := 0
  , neighcalls := 0 }

/-- A concrete 2-process ownership assignment: process 0 owns identifier 1,
process 1 owns identifier 2. -/
def owns2 : List (Int → Vec3 → Bool) :=
  [fun id _ => id == 1, fun id _ => id == 2]

/-! ## Helper lemmas -/

lemma wrap32_le_INT_MAX (x : Int) : wrap32 x ≤ INT_MAX := by
  have h1 : 0 ≤ (x + 2 ^ 31) % 2 ^ 32 := Int.emod_nonneg _ (by norm_num)
  have h2 : (x + 2 ^ 31) % 2 ^ 32 < 2 ^ 32 := Int.emod_lt_of_pos _ (by norm_num)
  unfold wrap32 INT_MAX
  omega

lemma maxAtomsGuard_eq_false (n : Int) : maxAtomsGuard n = false := by
  unfold maxAtomsGuard
  exact decide_eq_false (not_lt.mpr (wrap32_le_INT_MAX _))

/-! ## Theorems for the claims -/

/-- C7: `box_change` is a pure function of the origin vector and the 9-entry
box tensor: per axis it sets the global lower bound to the origin component
and the upper bound to origin plus the tensor's diagonal entry (indices 0,
4, 8), it sets the three tilt factors from tensor entries 3, 6, 7, and it
modifies no other domain state. -/
theorem C7_box_change_pure (d : DomainState) (o : Vec3) (b : Tensor9) :
    (box_change d o b).boxlo0 = o.1 ∧
    (box_change d o b).boxlo1 = o.2.1 ∧
    (box_change d o b).boxlo2 = o.2.2 ∧
    (box_change d o b).boxhi0 = o.1 + b.e0 ∧
    (box_change d o b).boxhi1 = o.2.1 + b.e4 ∧
    (box_change d o b).boxhi2 = o.2.2 + b.e8 ∧
    (box_change d o b).xy = b.e3 ∧
    (box_change d o b).xz = b.e6 ∧
    (box_change d o b).yz = b.e7 ∧
    (box_change d o b).dimension = d.dimension ∧
    (box_change d o b).periodicity0 = d.periodicity0 ∧
    (box_change d o b).periodicity1 = d.periodicity1 ∧
    (box_change d o b).periodicity2 = d.periodicity2 ∧
    (box_change d o b).triclinic = d.triclinic :=
  ⟨rfl, rfl, rfl, rfl, rfl, rfl, rfl, rfl, rfl, rfl, rfl, rfl, rfl, rfl⟩

/-- C5: the NATOMS guard of src line 125 can never fire.  `natoms` is a
32-bit `int`, so the product `3*natoms` wraps around and is itself a value
of `int` range, hence never exceeds `INT_MAX`: the SETUP is *not* rejected
for any `NATOMS > INT_MAX/3` (contrary to the claim and to the error
message "Server md max atoms is 1/3 of 2^31"). -/
theorem C5_max_atoms_guard_never_fires (n : Int) : maxAtomsGuard n = false :=
  maxAtomsGuard_eq_false n

/-- C1 (amended): the message loop keeps no record of whether a SETUP has
been processed.  A STEP message with a COORDS field is dispatched to the
STEP handler and processed normally from *any* state -- including a fresh
pre-SETUP state: the force-evaluation counter is incremented and a STEP
reply is sent, rather than any fatal protocol error being raised. -/
theorem C1_step_has_no_setup_guard (env : Env) (st : ServerState) (cs : List ℚ) :
    handleMsg env st ⟨2, [MsgField.fCOORDS cs]⟩ =
      HandlerOut.ok
        { st with
          atomsP := st.atomsP.map (fun A => (remap env.ci A cs st.natoms.toNat).1)
          forcecalls := st.forcecalls + 1
          neighcalls := st.neighcalls +
            (if env.neighDecide st.forcecalls then 1 else 0) }
        (send_fev 2 env.kspaceOn (env.pairFE st.forcecalls)
          ((st.atomsP.map (fun A => (remap env.ci A cs st.natoms.toNat).1)).map
            (fun A => A.map (fun a1 => (a1.tag, env.forceOf st.forcecalls a1.tag)))).flatten) :=
  rfl

/-- C1 (counterexample to the claim as stated): from the fresh pre-SETUP
state `st0`, a session whose very first message is a STEP does *not* abort
with a protocol error: the loop performs the force evaluation
(`forcecalls = 1` afterwards) and sends a STEP reply followed by the
closing reply. -/
theorem C1_counterexample :
    loop env0 st0 [⟨2, [MsgField.fCOORDS [(1 : ℚ), 2, 3]]⟩] =
      Outcome.done [Reply.fev 2 [] 0 v6zero, Reply.closing] 1
        { st0 with forcecalls := 1 } :=
  rfl

lemma handleSetup_ok_reply {env : Env} {st : ServerState} {fs : List MsgField}
    {st' : ServerState} {r : Reply}
    (h : handleSetup env st fs = HandlerOut.ok st' r) : r ≠ Reply.closing := by
  unfold handleSetup at h
  repeat' split at h
  all_goals (try exact HandlerOut.noConfusion h)
  all_goals (injection h with h1 h2; subst h2; simp [send_fev])

lemma handleStep_ok_reply {env : Env} {st : ServerState} {fs : List MsgField}
    {st' : ServerState} {r : Reply}
    (h : handleStep env st fs = HandlerOut.ok st' r) : r ≠ Reply.closing := by
  unfold handleStep at h
  repeat' split at h
  all_goals (try exact HandlerOut.noConfusion h)
  all_goals (injection h with h1 h2; subst h2; simp [send_fev])

lemma handleMsg_ok_reply {env : Env} {st : ServerState} {m : Msg}
    {st' : ServerState} {r : Reply}
    (h : handleMsg env st m = HandlerOut.ok st' r) : r ≠ Reply.closing := by
  unfold handleMsg at h
  split at h
  · exact handleSetup_ok_reply h
  · split at h
    · exact handleStep_ok_reply h
    · exact absurd h (by simp)

lemma runMsgs_no_closing {env : Env} :
    ∀ {msgs : List Msg} {st st' : ServerState} {rs : List Reply},
      runMsgs env st msgs = some (st', rs) → ∀ r ∈ rs, r ≠ Reply.closing := by
  intro msgs
  induction msgs with
  | nil =>
    intro st st' rs h
    simp only [runMsgs, Option.some.injEq, Prod.mk.injEq] at h
    rw [← h.2]
    intro r hr
    exact absurd hr (List.not_mem_nil r)
  | cons m rest ih =>
    intro st st' rs h
    simp only [runMsgs] at h
    by_cases hk : m.kind < 0
    · simp [hk] at h
    · rw [if_neg hk] at h
      cases hh : handleMsg env st m with
      | fatal e s => simp only [hh] at h; exact Option.noConfusion h
      | ok s r0 =>
        simp only [hh] at h
        cases hr : runMsgs env s rest with
        | none => simp only [hr] at h; exact Option.noConfusion h
        | some pr =>
          obtain ⟨f, rs1⟩ := pr
          simp only [hr, Option.some.injEq, Prod.mk.injEq] at h
          rw [← h.2]
          intro r hmem
          rcases List.mem_cons.mp hmem with h3 | h3
          · rw [h3]; exact handleMsg_ok_reply hh
          · exact ih hr r h3

lemma loop_append (env : Env) {m : Msg} (hm : m.kind < 0) :
    ∀ (pre : List Msg) {st st' : ServerState} {rs : List Reply} (rest : List Msg),
      runMsgs env st pre = some (st', rs) →
      loop env st (pre ++ m :: rest) =
        Outcome.done (rs ++ [Reply.closing]) (pre.length + 1) st' := by
  intro pre
  induction pre with
  | nil =>
    intro st st' rs rest h
    simp only [runMsgs, Option.some.injEq, Prod.mk.injEq] at h
    rw [← h.1, ← h.2]
    simp [loop, hm]
  | cons p ps ih =>
    intro st st' rs rest h
    simp only [runMsgs] at h
    by_cases hk : p.kind < 0
    · simp [hk] at h
    · rw [if_neg hk] at h
      cases hh : handleMsg env st p with
      | fatal e s => simp only [hh] at h; exact Option.noConfusion h
      | ok s r0 =>
        simp only [hh] at h
        cases hr : runMsgs env s ps with
        | none => simp only [hr] at h; exact Option.noConfusion h
        | some pr =>
          obtain ⟨f, rs1⟩ := pr
          simp only [hr, Option.some.injEq, Prod.mk.injEq] at h
          rw [← h.1, ← h.2]
          have hrec := ih rest hr
          simp only [List.cons_append, loop, if_neg hk, hh, List.append_eq]
          rw [hrec]
          rfl

/-- C9: session termination.  After any number of successfully handled
SETUP/STEP exchanges (`runMsgs env st pre = some (st', rs)`), a message with
a negative msgID -- the TERMINATE / end-of-stream condition of src line 90
-- makes the loop exit, send exactly one zero-field closing reply (none of
the earlier replies is a closing reply), and read no further message: the
outcome is independent of `rest` and exactly `pre.length + 1` messages were
consumed. -/
theorem C9_terminate_closes_session (env : Env) (st st' : ServerState)
    (pre rest : List Msg) (rs : List Reply) (m : Msg)
    (hm : m.kind < 0) (h : runMsgs env st pre = some (st', rs)) :
    loop env st (pre ++ m :: rest) =
      Outcome.done (rs ++ [Reply.closing]) (pre.length + 1) st' ∧
    (∀ r ∈ rs, r ≠ Reply.closing) :=
  ⟨loop_append env hm pre rest h, runMsgs_no_closing h⟩

/-- Witness for C9 at a concrete input: terminate right away (`pre = []`),
with one more message behind the terminator that is never read. -/
theorem C9_terminate_closes_session_witness :
    ((-1 : Int) < 0 ∧ runMsgs env0 st0 [] = some (st0, [])) ∧
    (loop env0 st0 ([] ++ (⟨-1, []⟩ : Msg) :: [⟨1, []⟩]) =
      Outcome.done ([] ++ [Reply.closing]) (List.length ([] : List Msg) + 1) st0 ∧
    (∀ r ∈ ([] : List Reply), r ≠ Reply.closing)) :=
  ⟨⟨by decide, rfl⟩,
   C9_terminate_closes_session env0 st0 st0 [] [⟨1, []⟩] [] ⟨-1, []⟩ (by decide) rfl⟩

/-- C4: a SETUP or STEP message whose BOX tensor has a non-zero entry at
index 3, 6 or 7, received by a server configured non-triclinic, fails
fatally at the triclinic check *before* `box_change` runs: the handler
aborts carrying the state it was given unchanged, so the stored box
geometry (lower bounds, upper bounds, tilt factors) is exactly what it was
before the message was processed. -/
theorem C4_tilt_rejected_before_box_install
    (env : Env) (st : ServerState) (dm p0 p1 p2 : Int) (o : Vec3)
    (b : Tensor9) (na nt : Int) (ts : List Int) (cs : List ℚ)
    (hdim : dm = st.domain.dimension) (hdim0 : dm ≠ 0)
    (hp0 : p0 = st.domain.periodicity0) (hp1 : p1 = st.domain.periodicity1)
    (hp2 : p2 = st.domain.periodicity2)
    (hna : 0 ≤ na) (hnt : nt = st.ntypes) (hnt0 : 0 ≤ nt)
    (htilt : b.e3 ≠ 0 ∨ b.e6 ≠ 0 ∨ b.e7 ≠ 0) (htri : st.domain.triclinic = 0) :
    handleMsg env st ⟨1, [.fDIM dm, .fPERIODICITY p0 p1 p2, .fORIGIN o,
        .fBOX b, .fNATOMS na, .fNTYPES nt, .fTYPES ts, .fCOORDS cs]⟩ =
      HandlerOut.fatal ErrMsg.triclinicBox st ∧
    handleMsg env st ⟨2, [.fCOORDS cs, .fORIGIN o, .fBOX b]⟩ =
      HandlerOut.fatal ErrMsg.triclinicBox st := by
  subst hdim hp0 hp1 hp2 hnt
  have hna' : ¬ na < 0 := not_lt.mpr hna
  have hnt0' : ¬ st.ntypes < 0 := not_lt.mpr hnt0
  constructor
  · show handleSetup env st _ = _
    unfold handleSetup
    simp only [setupParse, ne_eq, not_true_eq_false, if_false, if_neg,
      maxAtomsGuard_eq_false, Bool.false_eq_true, ite_false, or_self]
    simp only [hdim0, hna', hnt0', Option.isNone_some, Option.isSome_none,
      Option.getD_some, Bool.false_eq_true, false_and, or_false, if_false,
      ite_false, if_neg, not_false_eq_true]
    rw [if_pos ⟨htilt, htri⟩]
  · have hmsg : handleMsg env st ⟨2, [MsgField.fCOORDS cs, MsgField.fORIGIN o,
        MsgField.fBOX b]⟩ =
        handleStep env st [MsgField.fCOORDS cs, MsgField.fORIGIN o, MsgField.fBOX b] := by
      norm_num [handleMsg]
    rw [hmsg]
    unfold handleStep stepBoxUpdate
    simp only [stepParse]
    rw [if_pos ⟨htilt, htri⟩]

/-- Witness for C4 at a concrete input: a box tensor with tilt entry
`e3 = 1` sent to the non-triclinic server `st0`, as SETUP and as STEP. -/
theorem C4_tilt_rejected_before_box_install_witness :
    (((1 : ℚ) ≠ 0 ∨ (0 : ℚ) ≠ 0 ∨ (0 : ℚ) ≠ 0) ∧ st0.domain.triclinic = 0) ∧
    (handleMsg env0 st0 ⟨1, [.fDIM 3, .fPERIODICITY 1 1 1, .fORIGIN (0, 0, 0),
        .fBOX ⟨2, 0, 0, 1, 2, 0, 0, 0, 2⟩, .fNATOMS 0, .fNTYPES 1,
        .fTYPES [], .fCOORDS []]⟩ =
      HandlerOut.fatal ErrMsg.triclinicBox st0 ∧
    handleMsg env0 st0 ⟨2, [.fCOORDS [], .fORIGIN (0, 0, 0),
        .fBOX ⟨2, 0, 0, 1, 2, 0, 0, 0, 2⟩]⟩ =
      HandlerOut.fatal ErrMsg.triclinicBox st0) :=
  ⟨⟨Or.inl (by decide), rfl⟩,
   C4_tilt_rejected_before_box_install env0 st0 3 1 1 1 (0, 0, 0)
     ⟨2, 0, 0, 1, 2, 0, 0, 0, 2⟩ 0 1 [] [] rfl (by decide) rfl rfl rfl
     (by decide) rfl (by decide) (Or.inl (by decide)) rfl⟩

lemma setupParse_concrete (st : ServerState) (dm p0 p1 p2 : Int) (o : Vec3)
    (b : Tensor9) (na nt : Int) (ts : List Int) (cs : List ℚ) :
    setupParse st [.fDIM dm, .fPERIODICITY p0 p1 p2, .fORIGIN o, .fBOX b,
        .fNATOMS na, .fNTYPES nt, .fTYPES ts, .fCOORDS cs] {} =
      if dm ≠ st.domain.dimension then .error .dimMismatch
      else if p0 ≠ st.domain.periodicity0 ∨ p1 ≠ st.domain.periodicity1 ∨
          p2 ≠ st.domain.periodicity2 then .error .periodicityMismatch
      else if nt ≠ st.ntypes then .error .ntypesMismatch
      else .ok ⟨dm, some (p0, p1, p2), some o, some b, na, nt, some ts,
        some cs, none⟩ := by
  simp only [setupParse, maxAtomsGuard_eq_false, Bool.false_eq_true]
  split_ifs <;> first | rfl | simp_all

/-- C10: the handlers read the 9-element BOX tensor only through entries
0, 3, 4, 6, 7, 8.  Two runs from the same state whose BOX payloads agree on
those six entries -- i.e. differ at most in entries 1, 2 or 5 -- produce
identical handler outcomes (same validation result, same installed box
geometry, same reply), for SETUP and for STEP alike. -/
theorem C10_box_entries_1_2_5_never_read
    (env : Env) (st : ServerState) (dm p0 p1 p2 : Int) (o : Vec3)
    (b b' : Tensor9) (na nt : Int) (ts : List Int) (cs : List ℚ)
    (h0 : b.e0 = b'.e0) (h3 : b.e3 = b'.e3) (h4 : b.e4 = b'.e4)
    (h6 : b.e6 = b'.e6) (h7 : b.e7 = b'.e7) (h8 : b.e8 = b'.e8) :
    handleMsg env st ⟨1, [.fDIM dm, .fPERIODICITY p0 p1 p2, .fORIGIN o,
        .fBOX b, .fNATOMS na, .fNTYPES nt, .fTYPES ts, .fCOORDS cs]⟩ =
      handleMsg env st ⟨1, [.fDIM dm, .fPERIODICITY p0 p1 p2, .fORIGIN o,
        .fBOX b', .fNATOMS na, .fNTYPES nt, .fTYPES ts, .fCOORDS cs]⟩ ∧
    handleMsg env st ⟨2, [.fCOORDS cs, .fORIGIN o, .fBOX b]⟩ =
      handleMsg env st ⟨2, [.fCOORDS cs, .fORIGIN o, .fBOX b']⟩ := by
  obtain ⟨a0, a1, a2, a3, a4, a5, a6, a7, a8⟩ := b
  obtain ⟨c0, c1, c2, c3, c4, c5, c6, c7, c8⟩ := b'
  simp only at h0 h3 h4 h6 h7 h8
  subst h0 h3 h4 h6 h7 h8
  constructor
  · show handleSetup env st _ = handleSetup env st _
    unfold handleSetup
    rw [setupParse_concrete, setupParse_concrete]
    split_ifs <;> rfl
  · exact rfl

/-- Witness for C10 at a concrete input: two tensors that differ exactly in
entries 1, 2 and 5. -/
theorem C10_box_entries_1_2_5_never_read_witness :
    ((Tensor9.mk 2 9 9 0 2 9 0 0 2).e0 = (Tensor9.mk 2 0 0 0 2 0 0 0 2).e0 ∧
     (Tensor9.mk 2 9 9 0 2 9 0 0 2).e3 = (Tensor9.mk 2 0 0 0 2 0 0 0 2).e3) ∧
    (handleMsg env0 st0 ⟨1, [.fDIM 3, .fPERIODICITY 1 1 1, .fORIGIN (0, 0, 0),
        .fBOX (Tensor9.mk 2 9 9 0 2 9 0 0 2), .fNATOMS 0, .fNTYPES 1,
        .fTYPES [], .fCOORDS []]⟩ =
      handleMsg env0 st0 ⟨1, [.fDIM 3, .fPERIODICITY 1 1 1, .fORIGIN (0, 0, 0),
        .fBOX (Tensor9.mk 2 0 0 0 2 0 0 0 2), .fNATOMS 0, .fNTYPES 1,
        .fTYPES [], .fCOORDS []]⟩ ∧
    handleMsg env0 st0 ⟨2, [.fCOORDS [], .fORIGIN (0, 0, 0),
        .fBOX (Tensor9.mk 2 9 9 0 2 9 0 0 2)]⟩ =
      handleMsg env0 st0 ⟨2, [.fCOORDS [], .fORIGIN (0, 0, 0),
        .fBOX (Tensor9.mk 2 0 0 0 2 0 0 0 2)]⟩) :=
  ⟨⟨rfl, rfl⟩,
   C10_box_entries_1_2_5_never_read env0 st0 3 1 1 1 (0, 0, 0)
     (Tensor9.mk 2 9 9 0 2 9 0 0 2) (Tensor9.mk 2 0 0 0 2 0 0 0 2)
     0 1 [] [] rfl rfl rfl rfl rfl rfl⟩

lemma v6sum_cons (a : V6) (t : List V6) : v6sum (a :: t) = v6add a (v6sum t) :=
  rfl

lemma v6sum_components (l : List V6) :
    (v6sum l).c0 = (l.map V6.c0).sum ∧ (v6sum l).c1 = (l.map V6.c1).sum ∧
    (v6sum l).c2 = (l.map V6.c2).sum ∧ (v6sum l).c3 = (l.map V6.c3).sum ∧
    (v6sum l).c4 = (l.map V6.c4).sum ∧ (v6sum l).c5 = (l.map V6.c5).sum := by
  induction l with
  | nil =>
    refine ⟨rfl, rfl, rfl, rfl, rfl, rfl⟩
  | cons a t ih =>
    obtain ⟨i0, i1, i2, i3, i4, i5⟩ := ih
    refine ⟨?_, ?_, ?_, ?_, ?_, ?_⟩ <;>
      simp [v6sum_cons, v6add, i0, i1, i2, i3, i4, i5]

/-- C3: reduction correctness of `send_fev`.  Every reply in the process
group is the same `Reply.fev`; its ENERGY is the group sum of each
process's local pair energy (`eng_vdwl + eng_coul`), and each of the six
VIRIAL components is the group sum of the corresponding local virial
component, where the local virial is the pair virial plus the kspace
virial exactly when a long-range (kspace) component is configured. -/
theorem C3_reply_reduction (msgID : Int) (kon : Bool) (fes : List FEout)
    (fs : List (Int × Vec3)) (r : Reply)
    (hr : r ∈ send_fevGroup msgID kon fes fs) :
    r = Reply.fev msgID fs
          ((fes.map (fun f => f.eng_vdwl + f.eng_coul)).sum)
          (v6sum (fes.map (fun f => if kon then v6add f.pairV f.kspaceV else f.pairV))) ∧
    (∀ r' ∈ send_fevGroup msgID kon fes fs, r' = r) ∧
    (v6sum (fes.map (fun f => if kon then v6add f.pairV f.kspaceV else f.pairV))).c0 =
      (fes.map (fun f => (if kon then v6add f.pairV f.kspaceV else f.pairV).c0)).sum ∧
    (v6sum (fes.map (fun f => if kon then v6add f.pairV f.kspaceV else f.pairV))).c1 =
      (fes.map (fun f => (if kon then v6add f.pairV f.kspaceV else f.pairV).c1)).sum ∧
    (v6sum (fes.map (fun f => if kon then v6add f.pairV f.kspaceV else f.pairV))).c2 =
      (fes.map (fun f => (if kon then v6add f.pairV f.kspaceV else f.pairV).c2)).sum ∧
    (v6sum (fes.map (fun f => if kon then v6add f.pairV f.kspaceV else f.pairV))).c3 =
      (fes.map (fun f => (if kon then v6add f.pairV f.kspaceV else f.pairV).c3)).sum ∧
    (v6sum (fes.map (fun f => if kon then v6add f.pairV f.kspaceV else f.pairV))).c4 =
      (fes.map (fun f => (if kon then v6add f.pairV f.kspaceV else f.pairV).c4)).sum ∧
    (v6sum (fes.map (fun f => if kon then v6add f.pairV f.kspaceV else f.pairV))).c5 =
      (fes.map (fun f => (if kon then v6add f.pairV f.kspaceV else f.pairV).c5)).sum := by
  have hre : r = send_fev msgID kon fes fs := by
    rcases List.mem_map.mp hr with ⟨f0, _, hco⟩
    exact hco.symm
  have hc := v6sum_components
    (fes.map (fun f => if kon then v6add f.pairV f.kspaceV else f.pairV))
  refine ⟨hre, ?_, ?_, ?_, ?_, ?_, ?_, ?_⟩
  · intro r' hr'
    rcases List.mem_map.mp hr' with ⟨f1, _, hco1⟩
    rw [← hco1, hre]
  · rw [hc.1, List.map_map]; rfl
  · rw [hc.2.1, List.map_map]; rfl
  · rw [hc.2.2.1, List.map_map]; rfl
  · rw [hc.2.2.2.1, List.map_map]; rfl
  · rw [hc.2.2.2.2.1, List.map_map]; rfl
  · rw [hc.2.2.2.2.2, List.map_map]; rfl

/-- Witness for C3 at a concrete input: one process, kspace configured. -/
theorem C3_reply_reduction_witness :
    (send_fev 1 true [⟨0, 0, v6zero, v6zero⟩] [] ∈
      send_fevGroup 1 true [⟨0, 0, v6zero, v6zero⟩] []) ∧
    (send_fev 1 true [⟨0, 0, v6zero, v6zero⟩] [] =
      Reply.fev 1 []
        ((([⟨0, 0, v6zero, v6zero⟩] : List FEout).map
          (fun f => f.eng_vdwl + f.eng_coul)).sum)
        (v6sum (([⟨0, 0, v6zero, v6zero⟩] : List FEout).map
          (fun f => if true then v6add f.pairV f.kspaceV else f.pairV))) ∧
    (∀ r' ∈ send_fevGroup 1 true [⟨0, 0, v6zero, v6zero⟩] [],
      r' = send_fev 1 true [⟨0, 0, v6zero, v6zero⟩] []) ∧
    (v6sum (([⟨0, 0, v6zero, v6zero⟩] : List FEout).map
        (fun f => if true then v6add f.pairV f.kspaceV else f.pairV))).c0 =
      (([⟨0, 0, v6zero, v6zero⟩] : List FEout).map
        (fun f => (if true then v6add f.pairV f.kspaceV else f.pairV).c0)).sum ∧
    (v6sum (([⟨0, 0, v6zero, v6zero⟩] : List FEout).map
        (fun f => if true then v6add f.pairV f.kspaceV else f.pairV))).c1 =
      (([⟨0, 0, v6zero, v6zero⟩] : List FEout).map
        (fun f => (if true then v6add f.pairV f.kspaceV else f.pairV).c1)).sum ∧
    (v6sum (([⟨0, 0, v6zero, v6zero⟩] : List FEout).map
        (fun f => if true then v6add f.pairV f.kspaceV else f.pairV))).c2 =
      (([⟨0, 0, v6zero, v6zero⟩] : List FEout).map
        (fun f => (if true then v6add f.pairV f.kspaceV else f.pairV).c2)).sum ∧
    (v6sum (([⟨0, 0, v6zero, v6zero⟩] : List FEout).map
        (fun f => if true then v6add f.pairV f.kspaceV else f.pairV))).c3 =
      (([⟨0, 0, v6zero, v6zero⟩] : List FEout).map
        (fun f => (if true then v6add f.pairV f.kspaceV else f.pairV).c3)).sum ∧
    (v6sum (([⟨0, 0, v6zero, v6zero⟩] : List FEout).map
        (fun f => if true then v6add f.pairV f.kspaceV else f.pairV))).c4 =
      (([⟨0, 0, v6zero, v6zero⟩] : List FEout).map
        (fun f => (if true then v6add f.pairV f.kspaceV else f.pairV).c4)).sum ∧
    (v6sum (([⟨0, 0, v6zero, v6zero⟩] : List FEout).map
        (fun f => if true then v6add f.pairV f.kspaceV else f.pairV))).c5 =
      (([⟨0, 0, v6zero, v6zero⟩] : List FEout).map
        (fun f => (if true then v6add f.pairV f.kspaceV else f.pairV).c5)).sum) := by
  have hm : send_fev 1 true [⟨0, 0, v6zero, v6zero⟩] [] ∈
      send_fevGroup 1 true [⟨0, 0, v6zero, v6zero⟩] [] := by
    simp [send_fevGroup]
  exact ⟨hm, C3_reply_reduction 1 true [⟨0, 0, v6zero, v6zero⟩] [] _ hm⟩

lemma atomMap_eq_none {A : List Atom} {id : Int} (h : atomMap A id = none) :
    ∀ a ∈ A, a.tag ≠ id := by
  induction A with
  | nil => intro a ha; exact absurd ha (List.not_mem_nil a)
  | cons a0 t ih =>
    intro a ha
    unfold atomMap at h
    split at h
    · exact absurd h (by simp)
    · rcases List.mem_cons.mp ha with h1 | h1
      · subst h1; assumption
      · exact ih (Option.map_eq_none'.mp h) a h1

lemma atomMap_eq_some {A : List Atom} {id : Int} :
    ∀ {m : Nat}, atomMap A id = some m →
      m < A.length ∧ (A.getD m default).tag = id := by
  induction A with
  | nil => intro m h; simp [atomMap] at h
  | cons a0 t ih =>
    intro m h
    unfold atomMap at h
    split at h
    · injection h with h1
      subst h1
      exact ⟨Nat.succ_pos _, by assumption⟩
    · rcases Option.map_eq_some'.mp h with ⟨k, hk, hm⟩
      subst hm
      obtain ⟨hlt, htag⟩ := ih hk
      exact ⟨Nat.succ_lt_succ hlt, htag⟩

lemma map_tag_set (A : List Atom) (m : Nat) (u : Atom)
    (hu : u.tag = (A.getD m default).tag) :
    (A.set m u).map Atom.tag = A.map Atom.tag := by
  apply List.ext_getElem (by simp)
  intro k h1 h2
  simp only [List.getElem_map, List.getElem_set]
  by_cases hk : m = k
  · subst hk
    have hm : m < A.length := by simpa using h2
    simp [hu, List.getD, List.getElem?_eq_getElem hm]
  · simp [hk]

lemma remapGo_cursor (ci : Vec3 → Vec3 → Vec3) (cs : List ℚ) :
    ∀ (r : Nat) (A : List Atom) (j : Nat) (id : Int),
      (remapGo ci cs A j id r).2 = j + 3 * r := by
  intro r
  induction r with
  | zero => intro A j id; simp [remapGo]
  | succ n ih =>
    intro A j id
    simp only [remapGo]
    split
    · rw [ih]; omega
    · rw [ih]; omega

lemma setX_tag (a : Atom) (v : Vec3) : (setX a v).tag = a.tag := rfl

lemma window_step (ci : Vec3 → Vec3 → Vec3) (cs : List ℚ) {id : Int}
    {n j : Nat} (a : Atom) (hne : a.tag ≠ id) :
    (if id + 1 ≤ a.tag ∧ a.tag < id + 1 + (n : Int) then
      setX a (ci a.x (coordsSlice cs ((j + 3) + 3 * (a.tag - (id + 1)).toNat)))
    else a) =
    (if id ≤ a.tag ∧ a.tag < id + ((n + 1 : Nat) : Int) then
      setX a (ci a.x (coordsSlice cs (j + 3 * (a.tag - id).toNat)))
    else a) := by
  by_cases hw : id + 1 ≤ a.tag ∧ a.tag < id + 1 + (n : Int)
  · rw [if_pos hw, if_pos (by push_cast; omega)]
    have hoff : (j + 3) + 3 * (a.tag - (id + 1)).toNat =
        j + 3 * (a.tag - id).toNat := by omega
    rw [hoff]
  · rw [if_neg hw, if_neg (by push_cast; omega)]

lemma remapGo_eq_map (ci : Vec3 → Vec3 → Vec3) (cs : List ℚ) :
    ∀ (r : Nat) (A : List Atom) (j : Nat) (id : Int),
      (A.map Atom.tag).Nodup →
      (remapGo ci cs A j id r).1 =
        A.map (fun a1 =>
          if id ≤ a1.tag ∧ a1.tag < id + (r : Int) then
            setX a1 (ci a1.x (coordsSlice cs (j + 3 * (a1.tag - id).toNat)))
          else a1) := by
  intro r
  induction r with
  | zero =>
    intro A j id hnd
    simp only [remapGo]
    apply List.ext_getElem (by simp)
    intro k h1 h2
    simp only [List.getElem_map]
    rw [if_neg (by omega)]
  | succ n ih =>
    intro A j id hnd
    simp only [remapGo]
    cases hmap : atomMap A id with
    | none =>
      rw [ih A (j + 3) (id + 1) hnd]
      apply List.map_congr_left
      intro a ha
      exact window_step ci cs a (atomMap_eq_none hmap a ha)
    | some m =>
      obtain ⟨hm, htag⟩ := atomMap_eq_some hmap
      have hgd : A.getD m default = A[m] := by
        simp [List.getD, List.getElem?_eq_getElem hm]
      have hmt : A[m].tag = id := by rw [← hgd]; exact htag
      have hnd' : (((A.set m (setX (A.getD m default)
          (ci (A.getD m default).x (coordsSlice cs j)))).map Atom.tag)).Nodup := by
        rw [map_tag_set]
        · exact hnd
        · rfl
      rw [ih _ (j + 3) (id + 1) hnd']
      apply List.ext_getElem (by simp)
      intro k h1 h2
      have hk2 : k < A.length := by simpa using h2
      simp only [List.getElem_map, List.getElem_set]
      by_cases hk : m = k
      · subst hk
        rw [if_pos rfl, hgd]
        rw [if_neg (by rw [setX_tag, hmt]; omega)]
        rw [if_pos (by rw [hmt]; push_cast; omega)]
        rw [hmt]
        have h0 : (id - id).toNat = 0 := by omega
        rw [h0]
        norm_num
      · rw [if_neg hk]
        have hne : A[k].tag ≠ id := by
          intro heq
          apply hk
          have hmm : m < (A.map Atom.tag).length := by simpa using hm
          have hkk : k < (A.map Atom.tag).length := by simpa using hk2
          have heq2 : (A.map Atom.tag)[m] = (A.map Atom.tag)[k] := by
            simp only [List.getElem_map]
            rw [hmt, heq]
          exact (List.Nodup.getElem_inj_iff hnd).mp heq2
        exact window_step ci cs A[k] hne

/-- C8: the STEP coordinate-remap loop over identifiers `1 .. nall` advances
the flat coordinate-buffer cursor by exactly 3 per identifier whether or not
the atom is locally owned, so the final cursor equals `3 * nall`; and (for
unique local tags) the resulting atom list is the pointwise update: every
locally-owned atom whose identifier lies in `1 .. nall` gets its position
overwritten with the minimum-image-corrected received coordinate taken at
offset `3*(id-1)` of the buffer, while every other atom is untouched and
non-owned identifiers are skipped (their slots consumed). -/
theorem C8_remap_cursor_and_overwrite (ci : Vec3 → Vec3 → Vec3)
    (A : List Atom) (cs : List ℚ) (nall : Nat)
    (hnd : (A.map Atom.tag).Nodup) :
    (remap ci A cs nall).2 = 3 * nall ∧
    (remap ci A cs nall).1 =
      A.map (fun a1 =>
        if 1 ≤ a1.tag ∧ a1.tag < 1 + (nall : Int) then
          setX a1 (ci a1.x (coordsSlice cs (3 * (a1.tag - 1).toNat)))
        else a1) := by
  constructor
  · rw [remap, remapGo_cursor]; omega
  · rw [remap, remapGo_eq_map ci cs nall A 0 1 hnd]
    apply List.map_congr_left
    intro a _
    by_cases hw : 1 ≤ a.tag ∧ a.tag < 1 + (nall : Int)
    · rw [if_pos hw, if_pos hw]; norm_num
    · rw [if_neg hw, if_neg hw]

/-- Witness for C8 at a concrete input: two atoms stored out of identifier
order, with six received coordinates. -/
theorem C8_remap_cursor_and_overwrite_witness :
    (([(⟨2, 1, (0, 0, 0), 0⟩ : Atom), ⟨1, 1, (5, 5, 5), 0⟩].map Atom.tag).Nodup) ∧
    ((remap (fun _ c => c) [⟨2, 1, (0, 0, 0), 0⟩, ⟨1, 1, (5, 5, 5), 0⟩]
        [10, 11, 12, 20, 21, 22] 2).2 = 3 * 2 ∧
     (remap (fun _ c => c) [⟨2, 1, (0, 0, 0), 0⟩, ⟨1, 1, (5, 5, 5), 0⟩]
        [10, 11, 12, 20, 21, 22] 2).1 =
      [(⟨2, 1, (0, 0, 0), 0⟩ : Atom), ⟨1, 1, (5, 5, 5), 0⟩].map (fun a1 =>
        if 1 ≤ a1.tag ∧ a1.tag < 1 + ((2 : Nat) : Int) then
          setX a1 ((fun _ c => c) a1.x
            (coordsSlice [10, 11, 12, 20, 21, 22] (3 * (a1.tag - 1).toNat)))
        else a1)) :=
  ⟨by decide,
   C8_remap_cursor_and_overwrite (fun _ c => c)
     [⟨2, 1, (0, 0, 0), 0⟩, ⟨1, 1, (5, 5, 5), 0⟩]
     [10, 11, 12, 20, 21, 22] 2 (by decide)⟩

lemma filterMap_ite {α β : Type} (p : α → Bool) (g : α → β) :
    ∀ l : List α,
      l.filterMap (fun a => if p a then some (g a) else none) = (l.filter p).map g := by
  intro l
  induction l with
  | nil => rfl
  | cons a t ih =>
    by_cases h : p a <;> simp [List.filterMap_cons, List.filter_cons, h, ih]

lemma createLocal_map_tag (ow : Int → Vec3 → Bool) (n : Nat) (ts : List Int)
    (cs : List ℚ) (ch : Option (List ℚ)) :
    (createLocal ow n ts cs ch).map Atom.tag =
      ((List.range n).filter
        (fun (i : Nat) => ow ((i : Int) + 1) (coordsSlice cs (3 * i)))).map
        (fun (i : Nat) => (i : Int) + 1) := by
  unfold createLocal
  rw [List.map_filterMap]
  have hfg : (fun (i : Nat) => (if ow ((i : Int) + 1) (coordsSlice cs (3 * i)) then
      some { tag := (i : Int) + 1, typ := ts.getD i 0,
             x := coordsSlice cs (3 * i),
             q := match ch with | some qs => qs.getD i 0 | none => 0 } else
      none).map Atom.tag) =
      (fun (i : Nat) => if ow ((i : Int) + 1) (coordsSlice cs (3 * i)) then
        some ((i : Int) + 1) else none) := by
    funext i
    by_cases h : ow ((i : Int) + 1) (coordsSlice cs (3 * i)) <;> simp [h]
  rw [hfg, filterMap_ite]

lemma count_map_add_one (l : List Nat) (id : Int) :
    (l.map (fun (i : Nat) => (i : Int) + 1)).count id =
      if 1 ≤ id then l.count (id - 1).toNat else 0 := by
  by_cases h : 1 ≤ id
  · rw [if_pos h]
    have hg : id = ((id - 1).toNat : Int) + 1 := by omega
    conv_lhs => rw [hg]
    exact List.count_map_of_injective l (fun (i : Nat) => (i : Int) + 1)
      (fun a b hab => by simpa using hab) (id - 1).toNat
  · rw [if_neg h, List.count_eq_zero]
    intro hmem
    rcases List.mem_map.mp hmem with ⟨i, _, hi⟩
    omega

lemma count_filter_range (n : Nat) (p : Nat → Bool) (k : Nat) :
    ((List.range n).filter p).count k = if k < n ∧ p k then 1 else 0 := by
  by_cases hmem : k ∈ (List.range n).filter p
  · rw [List.count_eq_one_of_mem (List.Nodup.filter p (List.nodup_range n)) hmem]
    rcases List.mem_filter.mp hmem with ⟨h1, h2⟩
    rw [if_pos ⟨List.mem_range.mp h1, h2⟩]
  · rw [List.count_eq_zero_of_not_mem hmem, if_neg]
    rintro ⟨h1, h2⟩
    exact hmem (List.mem_filter.mpr ⟨List.mem_range.mpr h1, h2⟩)

lemma count_createLocal (ow : Int → Vec3 → Bool) (n : Nat) (ts : List Int)
    (cs : List ℚ) (ch : Option (List ℚ)) (id : Int) :
    ((createLocal ow n ts cs ch).map Atom.tag).count id =
      if 1 ≤ id ∧ id ≤ (n : Int) ∧
          ow id (coordsSlice cs (3 * (id - 1).toNat)) then 1 else 0 := by
  rw [createLocal_map_tag, count_map_add_one]
  by_cases h : 1 ≤ id
  · rw [if_pos h, count_filter_range]
    have hgi : ((id - 1).toNat : Int) + 1 = id := by omega
    apply if_congr _ rfl rfl
    constructor
    · rintro ⟨h1, h2⟩
      refine ⟨h, by omega, ?_⟩
      rwa [hgi] at h2
    · rintro ⟨h1, h2, h3⟩
      exact ⟨by omega, by rwa [hgi]⟩
  · rw [if_neg h, if_neg (fun hc => h hc.1)]

lemma sum_map_ite {α : Type} (p : α → Bool) :
    ∀ l : List α, (l.map (fun a => if p a then 1 else 0)).sum = l.countP p := by
  intro l
  induction l with
  | nil => rfl
  | cons a t ih =>
    by_cases h : p a
    · simp [List.countP_cons, h, ih]
      omega
    · simp [List.countP_cons, h, ih]

lemma count_expectedTags (n : Nat) (id : Int) :
    (expectedTags n).count id = if 1 ≤ id ∧ id ≤ (n : Int) then 1 else 0 := by
  unfold expectedTags
  rw [count_map_add_one]
  by_cases h : 1 ≤ id
  · rw [if_pos h]
    have hfl : (List.range n).filter (fun _ => true) = List.range n :=
      List.filter_true (List.range n)
    rw [← hfl, count_filter_range]
    apply if_congr _ rfl rfl
    constructor
    · rintro ⟨h1, -⟩
      exact ⟨h, by omega⟩
    · rintro ⟨-, h2⟩
      exact ⟨by omega, rfl⟩
  · rw [if_neg h, if_neg (fun hc => h hc.1)]

lemma joined_count (ownsP : List (Int → Vec3 → Bool)) (n : Nat) (ts : List Int)
    (cs : List ℚ) (ch : Option (List ℚ)) (id : Int) :
    ((((scatterLocals ownsP n ts cs ch).map (List.map Atom.tag)).flatten).count id) =
      if 1 ≤ id ∧ id ≤ (n : Int) then
        ownsP.countP (fun ow => ow id (coordsSlice cs (3 * (id - 1).toNat)))
      else 0 := by
  rw [List.count_flatten]
  unfold scatterLocals
  rw [List.map_map, List.map_map]
  simp only [Function.comp_def]
  by_cases hb : 1 ≤ id ∧ id ≤ (n : Int)
  · rw [if_pos hb]
    rw [← sum_map_ite (fun ow => ow id (coordsSlice cs (3 * (id - 1).toNat))) ownsP]
    congr 1
    apply List.map_congr_left
    intro ow _
    rw [count_createLocal]
    exact if_congr ⟨fun h => h.2.2, fun h => ⟨hb.1, hb.2, h⟩⟩ rfl rfl
  · rw [if_neg hb]
    have hz : ∀ ow ∈ ownsP,
        ((createLocal ow n ts cs ch).map Atom.tag).count id = 0 := by
      intro ow _
      rw [count_createLocal, if_neg]
      intro hc
      exact hb ⟨hc.1, hc.2.1⟩
    rw [List.map_congr_left hz]
    simp

/-- C2: the SETUP count invariant.  The post-scatter check is fatal exactly
when the all-reduced sum of the per-process local atom counts differs from
NATOMS; and whenever the ownership predicates assign each atom's coordinate
to exactly one process (the spec's partition property of `ownsCoordinate`),
the sum equals NATOMS, the check passes, and the union of the processes'
local identifier sets is exactly `{1..NATOMS}` with no duplicates and no
gaps (a permutation of `expectedTags`). -/
theorem C2_setup_count_invariant (ownsP : List (Int → Vec3 → Bool)) (n : Nat)
    (ts : List Int) (cs : List ℚ) (ch : Option (List ℚ))
    (H : ∀ i, i < n →
      ownsP.countP (fun ow => ow ((i : Int) + 1) (coordsSlice cs (3 * i))) = 1) :
    (∀ (ownsQ : List (Int → Vec3 → Bool)) (m : Nat) (ts' : List Int)
        (cs' : List ℚ) (ch' : Option (List ℚ)),
      setupCountCheck ownsQ m ts' cs' ch' = Except.error ErrMsg.atomCountMismatch ↔
        scatterTotal ownsQ m ts' cs' ch' ≠ m) ∧
    (((scatterLocals ownsP n ts cs ch).map (List.map Atom.tag)).flatten).Perm
      (expectedTags n) ∧
    scatterTotal ownsP n ts cs ch = n ∧
    setupCountCheck ownsP n ts cs ch = Except.ok (scatterLocals ownsP n ts cs ch) := by
  have hperm : ((((scatterLocals ownsP n ts cs ch).map (List.map Atom.tag)).flatten)).Perm
      (expectedTags n) := by
    rw [List.perm_iff_count]
    intro id
    rw [joined_count, count_expectedTags]
    by_cases hb : 1 ≤ id ∧ id ≤ (n : Int)
    · rw [if_pos hb, if_pos hb]
      have hid : ((id - 1).toNat : Int) + 1 = id := by omega
      have hlt : (id - 1).toNat < n := by omega
      have := H (id - 1).toNat hlt
      rw [hid] at this
      have h3 : 3 * (id - 1).toNat = 3 * (id - 1).toNat := rfl
      exact this
    · rw [if_neg hb, if_neg hb]
  have htot : scatterTotal ownsP n ts cs ch = n := by
    have hlen := hperm.length_eq
    rw [List.length_flatten, List.map_map] at hlen
    unfold expectedTags at hlen
    rw [List.length_map, List.length_range] at hlen
    have hsame : List.map (List.length ∘ List.map Atom.tag)
        (scatterLocals ownsP n ts cs ch) =
        List.map List.length (scatterLocals ownsP n ts cs ch) := by
      apply List.map_congr_left
      intro A _
      simp [Function.comp]
    rw [hsame] at hlen
    unfold scatterTotal
    exact hlen
  refine ⟨?_, hperm, htot, ?_⟩
  · intro ownsQ m ts' cs' ch'
    unfold setupCountCheck
    by_cases hq : scatterTotal ownsQ m ts' cs' ch' ≠ m
    · rw [if_pos hq]
      simp [hq]
    · rw [if_neg hq]
      simp [hq]
  · unfold setupCountCheck
    rw [if_neg (by rw [htot]; exact fun hc => hc rfl)]


/-- Witness for C2 at a concrete input: two processes, two atoms, each atom
owned by exactly one process. -/
theorem C2_setup_count_invariant_witness :
    (∀ (i : Nat), i < 2 →
      owns2.countP (fun ow => ow ((i : Int) + 1)
        (coordsSlice [0, 0, 0, 1, 1, 1] (3 * i))) = 1) ∧
    ((∀ (ownsQ : List (Int → Vec3 → Bool)) (m : Nat) (ts' : List Int)
        (cs' : List ℚ) (ch' : Option (List ℚ)),
      setupCountCheck ownsQ m ts' cs' ch' = Except.error ErrMsg.atomCountMismatch ↔
        scatterTotal ownsQ m ts' cs' ch' ≠ m) ∧
    (((scatterLocals owns2 2 [1, 1] [0, 0, 0, 1, 1, 1] none).map
        (List.map Atom.tag)).flatten).Perm (expectedTags 2) ∧
    scatterTotal owns2 2 [1, 1] [0, 0, 0, 1, 1, 1] none = 2 ∧
    setupCountCheck owns2 2 [1, 1] [0, 0, 0, 1, 1, 1] none =
      Except.ok (scatterLocals owns2 2 [1, 1] [0, 0, 0, 1, 1, 1] none)) :=
  ⟨by decide,
   C2_setup_count_invariant owns2 2 [1, 1] [0, 0, 0, 1, 1, 1] none (by decide)⟩
